import Mathlib

/-!
Verification of the `lbl` state-machine engine (`include/fsm.h`).

The embedding is state-passing: the context object `T` that the C++ code
mutates through actions, guards and entry/exit hooks is threaded explicitly.
Actions and hooks are functions `T → EV → T`; guards are pure predicates
`T → EV → Bool` (the source declares them as `const` member calls).  Raw
`State*` pointers are modelled as indices into a pool of states carried by
the machine; a null pointer is `none`.  Abnormal termination — dereferencing
an invalid pointer, or the `assert(false)` reached when the apply scan finds
no eligible candidate after a successful pre-scan — is modelled by an
`Option` result of `none`.

Every dispatch additionally produces a trace of the user-code invocations
the engine performed (exit hook, transition action, entry hook), so that
"fires exactly once, in this order" properties are directly statable.
-/

set_option maxHeartbeats 1000000

namespace lbl

/-- Trace of observable user-code invocations during one dispatch:
`exited c` means the exit hook of the state with index `c` fired, `acted j`
means the transition action of the candidate with index `j` (in registration
order) fired, `entered n` means the entry hook of state index `n` fired. -/
inductive TraceItem : Type where
  | exited : Nat → TraceItem
  | acted : Nat → TraceItem
  | entered : Nat → TraceItem
deriving DecidableEq

variable {T EV : Type} {α : Type}

/-- `NoAction` (fsm.h): the null action handler; in the state-passing
embedding it returns the context unchanged. -/
def NoAction : T → EV → T := fun t _ => t

/-- `NoGuard` (fsm.h): the default guard, always true. -/
def NoGuard : T → EV → Bool := fun _ _ => true

/-- `Transition` (fsm.h): the target state (`m_stNext`, an index into the
machine's state pool), the transition action (`m_evAction`) and the optional
guard (`m_guard`; the null pointer is `none`). -/
structure Transition (T EV : Type) where
  m_stNext : Nat
  m_evAction : T → EV → T
  m_guard : Option (T → EV → Bool)

/-- `Transition::isTransitable`: `m_guard == 0 || (*m_guard)(_T, ev)`. -/
def Transition.isTransitable (tr : Transition T EV) (t : T) (ev : EV) : Bool :=
  match tr.m_guard with
  | none => true
  | some g => g t ev

/-- `Transition::operator()`: under the same guard condition as
`isTransitable`, run the action and return the next state; otherwise return
the null pointer and leave the context untouched. -/
def Transition.call (tr : Transition T EV) (t : T) (ev : EV) : Option (Nat × T) :=
  if tr.isTransitable t ev then some (tr.m_stNext, tr.m_evAction t ev) else none

/-- Association-list model of `std::map` lookup. -/
def mapFind : List (Nat × α) → Nat → Option α
  | [], _ => none
  | (k0, v0) :: rest, k => if k0 = k then some v0 else mapFind rest k

/-- Lookup with a default: the value a table effectively associates to a
key, a missing key behaving as the default (for transition tables, the
empty sequence). -/
def mapFindD (tbl : List (Nat × α)) (k : Nat) (d : α) : α :=
  (mapFind tbl k).getD d

/-- Overwrite the value stored at a key (the key is appended when absent). -/
def mapSet : List (Nat × α) → Nat → α → List (Nat × α)
  | [], k, v => [(k, v)]
  | (k0, v0) :: rest, k, v =>
    if k0 = k then (k0, v) :: rest else (k0, v0) :: mapSet rest k v

/-- `std::map::operator[]`: return the mapped value, default-inserting a
value-initialised entry when the key is absent.  The possibly grown map is
returned alongside the value. -/
def mapIndex (tbl : List (Nat × α)) (k : Nat) (d : α) : α × List (Nat × α) :=
  match mapFind tbl k with
  | some v => (v, tbl)
  | none => (d, tbl ++ [(k, d)])

/-- `State` (fsm.h): the entry hook `m_evEnter`, the exit hook `m_evExit`,
and the transition table `m_stTable` mapping event identifiers to the
ordered vector of registered transitions. -/
structure State (T EV : Type) where
  m_evEnter : T → EV → T
  m_evExit : T → EV → T
  m_stTable : List (Nat × List (Transition T EV))

/-- `State::State(hEnter, hExit)`: a null hook pointer becomes `NoAction`;
the table starts empty. -/
def mkState (hEnter hExit : Option (T → EV → T)) : State T EV :=
  { m_evEnter := match hEnter with | none => NoAction | some a => a,
    m_evExit := match hExit with | none => NoAction | some a => a,
    m_stTable := [] }

/-- The action `State::add` builds for its `hAction` argument: a null
pointer becomes `NoAction`. -/
def actionOf (h : Option (T → EV → T)) : T → EV → T :=
  match h with | none => NoAction | some a => a

/-- The guard `State::add` builds for its `hGuard` argument: a null pointer
becomes a freshly allocated `NoGuard`, so registered transitions always
carry a guard object. -/
def guardOf (h : Option (T → EV → Bool)) : Option (T → EV → Bool) :=
  match h with | none => some NoGuard | some g => some g

/-- `State::add` (fsm.h): `m_stTable[ev].push_back(new Transition(stNext,
evAction, guard))` — `operator[]` default-inserts an empty vector when the
identifier is new, and the transition is appended at the back, so
registration order per identifier is preserved. -/
def State.add (s : State T EV) (ev : Nat) (stNext : Nat)
    (hAction : Option (T → EV → T)) (hGuard : Option (T → EV → Bool)) : State T EV :=
  let p := mapIndex s.m_stTable ev []
  { s with m_stTable := mapSet p.2 ev (p.1 ++ [⟨stNext, actionOf hAction, guardOf hGuard⟩]) }

/-- `State::operator[]` (fsm.h): looks the vector up via
`std::map::operator[]`, which default-inserts an empty vector for an absent
key; the possibly updated state is returned alongside the vector. -/
def State.index (s : State T EV) (k : Nat) : List (Transition T EV) × State T EV :=
  let p := mapIndex s.m_stTable k []
  (p.1, { s with m_stTable := p.2 })

/-- `State::Exit`: invoke the exit hook. -/
def State.Exit (s : State T EV) (t : T) (ev : EV) : T := s.m_evExit t ev

/-- `State::Enter`: invoke the entry hook. -/
def State.Enter (s : State T EV) (t : T) (ev : EV) : T := s.m_evEnter t ev

/-- fsm.h `enum { eStopped = 0, eRunning }`. -/
def eStopped : Nat := 0

/-- fsm.h `enum { eStopped = 0, eRunning }`. -/
def eRunning : Nat := 1

/-- `StateMachine` (fsm.h, aggregated version): the context `m_T`, the pool
of states that the raw `State*` pointers point into, the fixed start index
`m_stStart`, the current pointer `m_stCurrent` (null is `none`), and the
run flag `m_stThis`. -/
structure StateMachine (T EV : Type) where
  m_T : T
  states : List (State T EV)
  m_stStart : Nat
  m_stCurrent : Option Nat
  m_stThis : Nat

/-- The `StateMachine` constructor: `m_stCurrent(stStart)`,
`m_stThis(eStopped)`. -/
def mkStateMachine (t : T) (ss : List (State T EV)) (stStart : Nat) : StateMachine T EV :=
  { m_T := t, states := ss, m_stStart := stStart,
    m_stCurrent := some stStart, m_stThis := eStopped }

/-- `StateMachine::Start`: `(m_stThis != eStopped) ? false : (m_stThis =
eRunning)` — the success branch returns the assigned value `eRunning` = 1. -/
def StateMachine.Start (m : StateMachine T EV) : Nat × StateMachine T EV :=
  if m.m_stThis ≠ eStopped then (0, m) else (eRunning, { m with m_stThis := eRunning })

/-- `StateMachine::Halt`: `(m_stThis != eRunning) ? false : (m_stThis =
eStopped)` — the success branch returns the assigned value `eStopped` = 0. -/
def StateMachine.Halt (m : StateMachine T EV) : Nat × StateMachine T EV :=
  if m.m_stThis ≠ eRunning then (0, m) else (eStopped, { m with m_stThis := eStopped })

/-- `StateMachine::Reset`: `(m_stThis != eStopped) ? false : (m_stCurrent =
m_stStart)` — the success branch returns the assigned pointer `m_stStart`,
which is non-null, modelled as 1.  No hook is invoked anywhere in the
body. -/
def StateMachine.Reset (m : StateMachine T EV) : Nat × StateMachine T EV :=
  if m.m_stThis ≠ eStopped then (0, m) else (1, { m with m_stCurrent := some m.m_stStart })

/-- `StateMachine::transitable` (fsm.h): scan the vector in order, true at
the first candidate whose `isTransitable` holds, false when none does. -/
def transitable (t : T) : List (Transition T EV) → EV → Bool
  | [], _ => false
  | tr :: rest, ev => if tr.isTransitable t ev then true else transitable t rest ev

/-- The candidate loop of `StateMachine::ProcessEvent`: `m_stCurrent =
(**it)(THIS, event); if (m_stCurrent) break;` — invoke each transition in
registration order, stopping at the first non-null result.  Returns the
(target, candidate index) of the transition that fired — `none` when every
candidate refused — together with the context, which is mutated only by the
single action that ran.  `j` is the index of the first list element. -/
def applyScan (ev : EV) : List (Transition T EV) → Nat → T → Option (Nat × Nat) × T
  | [], _, t => (none, t)
  | tr :: rest, j, t =>
    match tr.call t ev with
    | some (next, t') => (some (next, j), t')
    | none => applyScan ev rest (j + 1) t

/-- `StateMachine::ProcessEvent` (fsm.h).  A result of `none` models
abnormal termination: dereferencing an invalid state pointer, or the
`assert(false)` fatal path reached when the pre-scan saw an eligible
candidate but the apply scan left `m_stCurrent` null.  Otherwise the result
is `some (handled?, machine', trace)`.  Note that the lookup of the
transition vector goes through `State::operator[]`, which may grow the
current state's table, and that the exit hook runs on the context BEFORE
the apply scan re-evaluates the guards. -/
def StateMachine.ProcessEvent (m : StateMachine T EV) (gid : EV → Nat) (ev : EV) :
    Option (Bool × StateMachine T EV × List TraceItem) :=
  match m.m_stCurrent with
  | none => none
  | some c =>
    match m.states[c]? with
    | none => none
    | some s =>
      if ((s.index (gid ev)).1).isEmpty || !(transitable m.m_T ((s.index (gid ev)).1) ev) then
        some (false, { m with states := m.states.set c (s.index (gid ev)).2 }, [])
      else
        match applyScan ev ((s.index (gid ev)).1) 0 (((s.index (gid ev)).2).Exit m.m_T ev) with
        | (none, _) => none
        | (some (next, j), t2) =>
          match (m.states.set c (s.index (gid ev)).2)[next]? with
          | none => none
          | some sN =>
            some (true,
              { m with m_T := sN.Enter t2 ev,
                       states := m.states.set c (s.index (gid ev)).2,
                       m_stCurrent := some next },
              [TraceItem.exited c, TraceItem.acted j, TraceItem.entered next])

/-- `StateMachine::PostEvent`: `(m_stThis != eRunning) ? false :
ProcessEvent(event)`. -/
def StateMachine.PostEvent (m : StateMachine T EV) (gid : EV → Nat) (ev : EV) :
    Option (Bool × StateMachine T EV × List TraceItem) :=
  if m.m_stThis ≠ eRunning then some (false, m, []) else m.ProcessEvent gid ev

/-- The spec's invariant on the engine: the current-state pointer is
non-null and points at a live state of the pool. -/
def ValidCurrent (m : StateMachine T EV) : Prop :=
  ∃ c, m.m_stCurrent = some c ∧ c < m.states.length

/-! ### Concrete instances used to evaluate the definitions -/

/-- A state whose exit hook falsifies the only transition's guard: the
guard reads the Bool context, the exit hook sets it to `false`. -/
def sAbort : State Bool Nat :=
  { m_evEnter := NoAction, m_evExit := fun _ _ => false,
    m_stTable := [(0, [⟨0, NoAction, some (fun t _ => t)⟩])] }

/-- A running machine on `sAbort` with context `true`: the pre-scan sees an
eligible candidate, but after the exit hook runs the apply scan does not. -/
def mAbort : StateMachine Bool Nat :=
  { m_T := true, states := [sAbort], m_stStart := 0,
    m_stCurrent := some 0, m_stThis := eRunning }

/-- Source state of a two-state example: exit hook adds 1 to the context,
its single transition on identifier 0 multiplies the context by 10 and
targets state 1. -/
def s0 : State Nat Nat :=
  { m_evEnter := NoAction, m_evExit := fun t _ => t + 1,
    m_stTable := [(0, [⟨1, fun t _ => t * 10, some NoGuard⟩])] }

/-- Target state of the two-state example: entry hook adds 100; no
transitions registered. -/
def s1 : State Nat Nat :=
  { m_evEnter := fun t _ => t + 100, m_evExit := NoAction, m_stTable := [] }

/-- Running machine currently at `s0` with context 0. -/
def mW : StateMachine Nat Nat :=
  { m_T := 0, states := [s0, s1], m_stStart := 0,
    m_stCurrent := some 0, m_stThis := eRunning }

/-- The same machine while Stopped. -/
def mStop : StateMachine Nat Nat :=
  { m_T := 0, states := [s0, s1], m_stStart := 0,
    m_stCurrent := some 0, m_stThis := eStopped }

/-- The same machine currently at `s1`, whose table is empty: every posted
event is unhandled there. -/
def mUnh : StateMachine Nat Nat :=
  { m_T := 0, states := [s0, s1], m_stStart := 0,
    m_stCurrent := some 1, m_stThis := eRunning }

/-- A state with two candidates for identifier 0, guards `(false, true)`:
the first targets state 0 with an action that would set the context to 999,
the second targets state 1 multiplying the context by 10. -/
def sTwo : State Nat Nat :=
  { m_evEnter := NoAction, m_evExit := fun t _ => t + 1,
    m_stTable := [(0, [⟨0, fun _ _ => 999, some (fun _ _ => false)⟩,
                       ⟨1, fun t _ => t * 10, some (fun _ _ => true)⟩])] }

/-- Running machine currently at `sTwo` with context 0. -/
def mTwo : StateMachine Nat Nat :=
  { m_T := 0, states := [sTwo, s1], m_stStart := 0,
    m_stCurrent := some 0, m_stThis := eRunning }

/-- A state with an empty transition table. -/
def sEmptyTbl : State Nat Nat :=
  { m_evEnter := NoAction, m_evExit := NoAction, m_stTable := [] }

/-! ### General lemmas about the embedded operations -/

lemma isEmpty_eq_false_of_transitable {t : T} {tv : List (Transition T EV)} {ev : EV}
    (h : transitable t tv ev = true) : tv.isEmpty = false := by
  cases tv with
  | nil => simp [transitable] at h
  | cons a l => rfl

lemma mem_of_getElem? {l : List α} :
    ∀ {n : Nat} {a : α}, l[n]? = some a → a ∈ l := by
  induction l with
  | nil => intro n a h; simp at h
  | cons x xs ih =>
    intro n a h
    cases n with
    | zero =>
      simp at h
      simp [h]
    | succ n' =>
      simp at h
      exact List.mem_cons_of_mem x (ih h)

lemma transitable_of_getElem? {t : T} {ev : EV} :
    ∀ (tv : List (Transition T EV)) (j : Nat) (trj : Transition T EV),
    tv[j]? = some trj → trj.isTransitable t ev = true → transitable t tv ev = true := by
  intro tv
  induction tv with
  | nil => intro j trj h _; simp at h
  | cons a l ih =>
    intro j trj h helig
    cases j with
    | zero =>
      simp at h
      subst h
      simp [transitable, helig]
    | succ j' =>
      simp at h
      have hl := ih j' trj h helig
      simp [transitable, hl]

lemma applyScan_first {ev : EV} :
    ∀ (tv : List (Transition T EV)) (t : T) (off j : Nat) (trj : Transition T EV),
    (∀ i tri, i < j → tv[i]? = some tri → tri.isTransitable t ev = false) →
    tv[j]? = some trj → trj.isTransitable t ev = true →
    applyScan ev tv off t = (some (trj.m_stNext, off + j), trj.m_evAction t ev) := by
  intro tv
  induction tv with
  | nil => intro t off j trj _ hj _; simp at hj
  | cons a l ih =>
    intro t off j trj hfirst hj helig
    cases j with
    | zero =>
      simp at hj
      subst hj
      simp [applyScan, Transition.call, helig]
    | succ j' =>
      have ha : a.isTransitable t ev = false := hfirst 0 a (Nat.succ_pos j') (by simp)
      simp at hj
      have hfirst' : ∀ i tri, i < j' → l[i]? = some tri → tri.isTransitable t ev = false := by
        intro i tri hi hgi
        exact hfirst (i + 1) tri (Nat.succ_lt_succ hi) (by simpa using hgi)
      have hrec := ih t (off + 1) j' trj hfirst' hj helig
      simp [applyScan, Transition.call, ha, hrec]
      omega

lemma applyScan_none {ev : EV} :
    ∀ (tv : List (Transition T EV)) (t : T) (off : Nat),
    (∀ tr ∈ tv, tr.isTransitable t ev = false) →
    applyScan ev tv off t = (none, t) := by
  intro tv
  induction tv with
  | nil => intro t off _; rfl
  | cons a l ih =>
    intro t off h
    have ha : a.isTransitable t ev = false := h a (List.mem_cons_self a l)
    have hl := ih t (off + 1) (fun tr htr => h tr (List.mem_cons_of_mem a htr))
    simp [applyScan, Transition.call, ha, hl]

/-! ### Map lemmas -/

lemma mapIndex_fst (tbl : List (Nat × α)) (k : Nat) (d : α) :
    (mapIndex tbl k d).1 = mapFindD tbl k d := by
  unfold mapIndex mapFindD
  cases mapFind tbl k with
  | none => rfl
  | some v => rfl

lemma mapFind_append_single (tbl : List (Nat × α)) (k k' : Nat) (d : α) :
    mapFind (tbl ++ [(k, d)]) k' =
      match mapFind tbl k' with
      | some v => some v
      | none => if k = k' then some d else none := by
  induction tbl with
  | nil => simp [mapFind]
  | cons p rest ih =>
    obtain ⟨k0, v0⟩ := p
    by_cases h : k0 = k' <;> simp [mapFind, h, ih]

lemma mapFindD_append_default (tbl : List (Nat × α)) (k k' : Nat) (d : α) :
    mapFindD (tbl ++ [(k, d)]) k' d = mapFindD tbl k' d := by
  unfold mapFindD
  rw [mapFind_append_single]
  cases mapFind tbl k' with
  | some v => rfl
  | none => by_cases h : k = k' <;> simp [h]

lemma mapFindD_mapIndex_snd (tbl : List (Nat × α)) (k k' : Nat) (d : α) :
    mapFindD (mapIndex tbl k d).2 k' d = mapFindD tbl k' d := by
  unfold mapIndex
  cases h : mapFind tbl k with
  | none => simpa using mapFindD_append_default tbl k k' d
  | some v => rfl

lemma mapFind_mapSet_self (tbl : List (Nat × α)) (k : Nat) (v : α) :
    mapFind (mapSet tbl k v) k = some v := by
  induction tbl with
  | nil => simp [mapSet, mapFind]
  | cons p rest ih =>
    obtain ⟨k0, v0⟩ := p
    by_cases h : k0 = k <;> simp [mapSet, mapFind, h, ih]

/-! ### State lemmas -/

lemma State.index_fst (s : State T EV) (k : Nat) :
    (s.index k).1 = mapFindD s.m_stTable k [] :=
  mapIndex_fst s.m_stTable k []

lemma State.index_snd_table (s : State T EV) (k k' : Nat) :
    mapFindD ((s.index k).2).m_stTable k' [] = mapFindD s.m_stTable k' [] :=
  mapFindD_mapIndex_snd s.m_stTable k k' []

lemma State.index_snd_hooks (s : State T EV) (k : Nat) :
    ((s.index k).2).m_evEnter = s.m_evEnter ∧ ((s.index k).2).m_evExit = s.m_evExit :=
  ⟨rfl, rfl⟩

/-! ### Dispatch lemmas -/

/-- The successful-dispatch shape of `ProcessEvent`: when the pre-scan
passes and `j` is the first candidate eligible in the post-exit context,
the dispatch fires exit, the action of candidate `j`, and the target's
entry, in that order and exactly once each, moves `m_stCurrent` to the
target, and reports handled. -/
lemma ProcessEvent_success (m : StateMachine T EV) (gid : EV → Nat) (ev : EV)
    (c : Nat) (s : State T EV) (j : Nat) (trj : Transition T EV) (sN : State T EV)
    (hc : m.m_stCurrent = some c)
    (hs : m.states[c]? = some s)
    (hpre : transitable m.m_T ((s.index (gid ev)).1) ev = true)
    (hfirst : ∀ i tri, i < j → ((s.index (gid ev)).1)[i]? = some tri →
        tri.isTransitable (s.m_evExit m.m_T ev) ev = false)
    (hj : ((s.index (gid ev)).1)[j]? = some trj)
    (helig : trj.isTransitable (s.m_evExit m.m_T ev) ev = true)
    (hsN : (m.states.set c (s.index (gid ev)).2)[trj.m_stNext]? = some sN) :
    m.ProcessEvent gid ev = some (true,
      { m with m_T := sN.m_evEnter (trj.m_evAction (s.m_evExit m.m_T ev) ev) ev,
               states := m.states.set c (s.index (gid ev)).2,
               m_stCurrent := some trj.m_stNext },
      [TraceItem.exited c, TraceItem.acted j, TraceItem.entered trj.m_stNext]) := by
  have hAppl := applyScan_first ((s.index (gid ev)).1) (s.m_evExit m.m_T ev) 0 j trj
    hfirst hj helig
  have hExit : ((s.index (gid ev)).2).Exit m.m_T ev = s.m_evExit m.m_T ev := rfl
  have hEmp := isEmpty_eq_false_of_transitable hpre
  simp only [StateMachine.ProcessEvent, hc, hs, hEmp, hpre, Bool.not_true, Bool.or_false,
    Bool.false_or, hExit, hAppl, Nat.zero_add, hsN, State.Enter]
  simp

/-- The unhandled shape of `ProcessEvent`: an empty candidate vector or a
failing pre-scan returns unhandled, with no hook or action fired and the
current-state pointer untouched (though the table of the current state may
have grown an empty entry through `operator[]`). -/
lemma ProcessEvent_unhandled (m : StateMachine T EV) (gid : EV → Nat) (ev : EV)
    (c : Nat) (s : State T EV)
    (hc : m.m_stCurrent = some c)
    (hs : m.states[c]? = some s)
    (h : (s.index (gid ev)).1 = [] ∨ transitable m.m_T ((s.index (gid ev)).1) ev = false) :
    m.ProcessEvent gid ev =
      some (false, { m with states := m.states.set c (s.index (gid ev)).2 }, []) := by
  have hcond : (((s.index (gid ev)).1).isEmpty
      || !(transitable m.m_T ((s.index (gid ev)).1) ev)) = true := by
    cases h with
    | inl h0 => simp [h0]
    | inr h0 => simp [h0]
  simp only [StateMachine.ProcessEvent, hc, hs, hcond, if_pos]

/-- The fatal shape of `ProcessEvent`: pre-scan eligible, apply scan not —
the run reaches `assert(false)` with `m_stCurrent` null, modelled as
abnormal termination. -/
lemma ProcessEvent_fatal (m : StateMachine T EV) (gid : EV → Nat) (ev : EV)
    (c : Nat) (s : State T EV)
    (hc : m.m_stCurrent = some c)
    (hs : m.states[c]? = some s)
    (hpre : transitable m.m_T ((s.index (gid ev)).1) ev = true)
    (happ : ∀ tr ∈ (s.index (gid ev)).1,
        tr.isTransitable (s.m_evExit m.m_T ev) ev = false) :
    m.ProcessEvent gid ev = none := by
  have hAppl := applyScan_none ((s.index (gid ev)).1) (s.m_evExit m.m_T ev) 0 happ
  have hExit : ((s.index (gid ev)).2).Exit m.m_T ev = s.m_evExit m.m_T ev := rfl
  have hEmp := isEmpty_eq_false_of_transitable hpre
  simp only [StateMachine.ProcessEvent, hc, hs, hEmp, hpre, Bool.not_true, Bool.or_false,
    Bool.false_or, hExit, hAppl]
  simp

/-- Whenever `ProcessEvent` returns normally, the current-state pointer of
the machine it returns is a valid, non-null reference. -/
lemma ProcessEvent_some_valid (m : StateMachine T EV) (gid : EV → Nat) (ev : EV)
    (hcur : ValidCurrent m) :
    ∀ b m' tr, m.ProcessEvent gid ev = some (b, m', tr) → ValidCurrent m' := by
  intro b m' tr h
  obtain ⟨c, hc, hlt⟩ := hcur
  simp only [StateMachine.ProcessEvent, hc] at h
  cases hs : m.states[c]? with
  | none => simp [hs] at h
  | some s =>
    simp only [hs] at h
    by_cases hcond : (((s.index (gid ev)).1).isEmpty
        || !(transitable m.m_T ((s.index (gid ev)).1) ev)) = true
    · rw [if_pos hcond] at h
      simp only [Option.some.injEq, Prod.mk.injEq] at h
      obtain ⟨_, hm', _⟩ := h
      refine ⟨c, ?_, ?_⟩
      · rw [← hm']
      · rw [← hm']
        simpa using hlt
    · rw [if_neg hcond] at h
      rcases happ : applyScan ev ((s.index (gid ev)).1) 0
          (((s.index (gid ev)).2).Exit m.m_T ev) with ⟨o, t2⟩
      cases o with
      | none => simp [happ] at h
      | some nj =>
        obtain ⟨next, j⟩ := nj
        cases hn : (m.states.set c (s.index (gid ev)).2)[next]? with
        | none => simp [happ, hn] at h
        | some sN =>
          simp only [happ, hn, Option.some.injEq, Prod.mk.injEq] at h
          obtain ⟨_, hm', _⟩ := h
          have hlt2 : next < (m.states.set c (s.index (gid ev)).2).length :=
            (List.getElem?_eq_some.mp hn).1
          refine ⟨next, ?_, ?_⟩
          · rw [← hm']
          · rw [← hm']
            simpa using hlt2

/-! ### Claim theorems -/

/-- Claim C1, counterexample to the claim as stated: in `mAbort` the posted
event has an eligible registered transition (the pre-scan succeeds), yet
`ProcessEvent` does not return "handled" — the exit hook falsifies the
guard, the apply scan finds no eligible candidate, and the run ends in the
`assert(false)` fatal path (no action executed, no entry hook fired, and
`m_stCurrent` left null at the abort). -/
theorem processEvent_eligible_aborts_cex :
    transitable mAbort.m_T ((sAbort.index 0).1) 0 = true ∧
    mAbort.ProcessEvent id 0 = none :=
  ⟨rfl, rfl⟩

/-- Claim C1 (amended): for every dispatch in which at least one registered
transition for the posted event's identifier is eligible AND the exit hook
does not change any candidate's guard verdict, `ProcessEvent` fires the old
current state's exit hook exactly once, then executes exactly one
transition action — that of the first eligible candidate — then fires the
target state's entry hook exactly once, sets `m_stCurrent` to the target,
and returns "handled"; the trace lists the three firings in order. -/
theorem processEvent_success_of_exit_stable (m : StateMachine T EV) (gid : EV → Nat)
    (ev : EV) (c : Nat) (s : State T EV) (j : Nat) (trj : Transition T EV) (sN : State T EV)
    (hc : m.m_stCurrent = some c)
    (hs : m.states[c]? = some s)
    (hstable : ∀ tr ∈ (s.index (gid ev)).1,
        tr.isTransitable (s.m_evExit m.m_T ev) ev = tr.isTransitable m.m_T ev)
    (hfirst : ∀ i tri, i < j → ((s.index (gid ev)).1)[i]? = some tri →
        tri.isTransitable m.m_T ev = false)
    (hj : ((s.index (gid ev)).1)[j]? = some trj)
    (helig : trj.isTransitable m.m_T ev = true)
    (hsN : (m.states.set c (s.index (gid ev)).2)[trj.m_stNext]? = some sN) :
    m.ProcessEvent gid ev = some (true,
      { m with m_T := sN.m_evEnter (trj.m_evAction (s.m_evExit m.m_T ev) ev) ev,
               states := m.states.set c (s.index (gid ev)).2,
               m_stCurrent := some trj.m_stNext },
      [TraceItem.exited c, TraceItem.acted j, TraceItem.entered trj.m_stNext]) := by
  have hpre : transitable m.m_T ((s.index (gid ev)).1) ev = true :=
    transitable_of_getElem? _ j trj hj helig
  refine ProcessEvent_success m gid ev c s j trj sN hc hs hpre ?_ hj ?_ hsN
  · intro i tri hi hgi
    rw [hstable tri (mem_of_getElem? hgi)]
    exact hfirst i tri hi hgi
  · rw [hstable trj (mem_of_getElem? hj)]
    exact helig

/-- Witness for C1's amended theorem: dispatching event 0 on `mW` (context
0) runs exit (+1), then the single transition's action (*10), then entry
(+100), giving context 110, current state 1, result "handled", and the
three-entry trace. -/
theorem processEvent_success_of_exit_stable_witness :
    mW.ProcessEvent id 0 = some (true,
      { m_T := 110, states := [s0, s1], m_stStart := 0,
        m_stCurrent := some 1, m_stThis := eRunning },
      [TraceItem.exited 0, TraceItem.acted 0, TraceItem.entered 1]) :=
  processEvent_success_of_exit_stable mW id 0 0 s0 0
    ⟨1, fun t _ => t * 10, some NoGuard⟩ s1 rfl rfl
    (by
      intro tr htr
      have h1 : tr = ⟨1, fun t _ => t * 10, some NoGuard⟩ := by
        simpa [s0, State.index, mapIndex, mapFind] using htr
      subst h1
      rfl)
    (by intro i tri hi _; exact absurd hi (Nat.not_lt_zero i))
    rfl rfl rfl

/-- Claim C2 (confirmed): the apply scan examines the candidates for the
posted identifier in registration order and takes the first one whose
guard passes (in the post-exit context the code evaluates them in); the
selected candidate's action is the only action that runs — the trace
contains exactly one `acted` item, the new context is obtained by applying
only exit, the winning action, and entry — and later candidates are never
applied. -/
theorem processEvent_first_passing_guard_wins (m : StateMachine T EV) (gid : EV → Nat)
    (ev : EV) (c : Nat) (s : State T EV) (j : Nat) (trj : Transition T EV) (sN : State T EV)
    (hc : m.m_stCurrent = some c)
    (hs : m.states[c]? = some s)
    (hpre : transitable m.m_T ((s.index (gid ev)).1) ev = true)
    (hfirst : ∀ i tri, i < j → ((s.index (gid ev)).1)[i]? = some tri →
        tri.isTransitable (s.m_evExit m.m_T ev) ev = false)
    (hj : ((s.index (gid ev)).1)[j]? = some trj)
    (helig : trj.isTransitable (s.m_evExit m.m_T ev) ev = true)
    (hsN : (m.states.set c (s.index (gid ev)).2)[trj.m_stNext]? = some sN) :
    m.ProcessEvent gid ev = some (true,
      { m with m_T := sN.m_evEnter (trj.m_evAction (s.m_evExit m.m_T ev) ev) ev,
               states := m.states.set c (s.index (gid ev)).2,
               m_stCurrent := some trj.m_stNext },
      [TraceItem.exited c, TraceItem.acted j, TraceItem.entered trj.m_stNext]) :=
  ProcessEvent_success m gid ev c s j trj sN hc hs hpre hfirst hj helig hsN

/-- Witness for C2: in `mTwo` the two candidates for identifier 0 carry
guards `(false, true)`; the dispatch selects candidate 1 (the trace records
`acted 1` only), the first candidate's action (which would have set the
context to 999) never runs, and the context ends at 110 = ((0+1)*10)+100. -/
theorem processEvent_first_passing_guard_wins_witness :
    mTwo.ProcessEvent id 0 = some (true,
      { m_T := 110, states := [sTwo, s1], m_stStart := 0,
        m_stCurrent := some 1, m_stThis := eRunning },
      [TraceItem.exited 0, TraceItem.acted 1, TraceItem.entered 1]) :=
  processEvent_first_passing_guard_wins mTwo id 0 0 sTwo 1
    ⟨1, fun t _ => t * 10, some (fun _ _ => true)⟩ s1 rfl rfl rfl
    (by
      intro i tri hi hg
      have hi0 : i = 0 := by omega
      subst hi0
      have h1 : tri = ⟨0, fun _ _ => 999, some (fun _ _ => false)⟩ := by
        simpa [sTwo, State.index, mapIndex, mapFind] using hg.symm
      subst h1
      rfl)
    rfl rfl rfl

/-- Claim C3 (confirmed): when the current state has no registered
transition for the posted identifier, or no registered candidate's guard
passes, `ProcessEvent` returns "unhandled", leaves `m_stCurrent` and the
context unchanged, and fires no action and no hook (the trace is empty). -/
theorem processEvent_unhandled_no_effect (m : StateMachine T EV) (gid : EV → Nat)
    (ev : EV) (c : Nat) (s : State T EV)
    (hc : m.m_stCurrent = some c)
    (hs : m.states[c]? = some s)
    (h : (s.index (gid ev)).1 = [] ∨ transitable m.m_T ((s.index (gid ev)).1) ev = false) :
    ∃ mp, m.ProcessEvent gid ev = some (false, mp, []) ∧
      mp.m_stCurrent = m.m_stCurrent ∧ mp.m_T = m.m_T ∧
      mp.m_stThis = m.m_stThis ∧ mp.states.length = m.states.length :=
  ⟨_, ProcessEvent_unhandled m gid ev c s hc hs h, rfl, rfl, rfl, by simp⟩

/-- Witness for C3: in `mUnh` the current state (index 1) has an empty
table, so event 0 is unhandled and nothing observable changes. -/
theorem processEvent_unhandled_no_effect_witness :
    ∃ mp, mUnh.ProcessEvent id 0 = some (false, mp, []) ∧
      mp.m_stCurrent = mUnh.m_stCurrent ∧ mp.m_T = mUnh.m_T ∧
      mp.m_stThis = mUnh.m_stThis ∧ mp.states.length = mUnh.states.length :=
  processEvent_unhandled_no_effect mUnh id 0 1 s1 rfl rfl (Or.inl rfl)

/-- A machine with the same current pointer and state pool as a valid one
is valid. -/
lemma ValidCurrent_of_eq (m mp : StateMachine T EV)
    (h1 : mp.m_stCurrent = m.m_stCurrent) (h2 : mp.states = m.states)
    (h : ValidCurrent m) : ValidCurrent mp := by
  obtain ⟨c, hc, hlt⟩ := h
  exact ⟨c, by rw [h1, hc], by rw [h2]; exact hlt⟩

/-- Claim C4 (confirmed): assuming the constructor invariants (the start
index and the current pointer reference live states), every lifecycle
operation and every normally returning dispatch preserves validity and
non-nullness of `m_stCurrent`; and when the pre-scan finds an eligible
candidate but the apply scan finds none (every guard false in the
post-exit context), the engine terminates abnormally through
`assert(false)` — it never returns normally with a stale or null current
state. -/
theorem currentState_invariant_preserved (gid : EV → Nat) (m : StateMachine T EV) (ev : EV)
    (hstart : m.m_stStart < m.states.length) (hcur : ValidCurrent m) :
    ValidCurrent (m.Start).2 ∧ ValidCurrent (m.Halt).2 ∧ ValidCurrent (m.Reset).2 ∧
    (∀ b mp tr, m.PostEvent gid ev = some (b, mp, tr) → ValidCurrent mp) ∧
    (∀ c s, m.m_stCurrent = some c → m.states[c]? = some s →
      transitable m.m_T ((s.index (gid ev)).1) ev = true →
      (∀ tr2 ∈ (s.index (gid ev)).1, tr2.isTransitable (s.m_evExit m.m_T ev) ev = false) →
      m.ProcessEvent gid ev = none) := by
  refine ⟨?_, ?_, ?_, ?_, ?_⟩
  · refine ValidCurrent_of_eq m _ ?_ ?_ hcur <;>
      by_cases h : m.m_stThis ≠ eStopped <;> simp [StateMachine.Start, h]
  · refine ValidCurrent_of_eq m _ ?_ ?_ hcur <;>
      by_cases h : m.m_stThis ≠ eRunning <;> simp [StateMachine.Halt, h]
  · by_cases h : m.m_stThis ≠ eStopped
    · have hr : m.Reset = (0, m) := by simp [StateMachine.Reset, h]
      rw [hr]
      exact hcur
    · have hr : m.Reset = (1, { m with m_stCurrent := some m.m_stStart }) := by
        simp [StateMachine.Reset, h]
      rw [hr]
      exact ⟨m.m_stStart, rfl, hstart⟩
  · intro b mp tr h
    unfold StateMachine.PostEvent at h
    by_cases hrun : m.m_stThis ≠ eRunning
    · rw [if_pos hrun] at h
      simp only [Option.some.injEq, Prod.mk.injEq] at h
      obtain ⟨_, hm, _⟩ := h
      exact ValidCurrent_of_eq m mp (by rw [← hm]) (by rw [← hm]) hcur
    · rw [if_neg hrun] at h
      exact ProcessEvent_some_valid m gid ev hcur b mp tr h
  · intro c s hc hs hpre happ
    exact ProcessEvent_fatal m gid ev c s hc hs hpre happ

/-- Witness for C4 at the concrete machine `mW` (start index 0 and current
pointer 0 both reference live states). -/
theorem currentState_invariant_preserved_witness :
    ValidCurrent (mW.Start).2 ∧ ValidCurrent (mW.Halt).2 ∧ ValidCurrent (mW.Reset).2 ∧
    (∀ b mp tr, mW.PostEvent id 0 = some (b, mp, tr) → ValidCurrent mp) ∧
    (∀ c s, mW.m_stCurrent = some c → mW.states[c]? = some s →
      transitable mW.m_T ((s.index 0).1) 0 = true →
      (∀ tr2 ∈ (s.index 0).1, tr2.isTransitable (s.m_evExit mW.m_T 0) 0 = false) →
      mW.ProcessEvent id 0 = none) :=
  currentState_invariant_preserved id mW 0 (by decide) ⟨0, rfl, by decide⟩

/-- Claim C5 (code-bug evidence): halting the running machine `mW` does
flip the run flag to `eStopped`, but the call returns 0 — the value of the
assignment `m_stThis = eStopped` — indistinguishable from the 0 returned
by the failing second halt; `Start` from Stopped, by contrast, returns its
assigned value `eRunning` = 1, so the "return success" convention the
halt claim asserts is broken only in `Halt`. -/
theorem halt_success_returns_zero :
    (mW.Halt).1 = 0 ∧ ((mW.Halt).2).m_stThis = eStopped ∧
    (((mW.Halt).2).Halt).1 = 0 ∧ (mStop.Start).1 = 1 :=
  ⟨rfl, rfl, rfl, rfl⟩

/-- Claim C6 (confirmed): while the run flag is not `eRunning`, `PostEvent`
returns "not accepted" immediately with the machine unchanged (so no guard,
action, or hook can have been invoked — the result does not depend on the
states at all and the trace is empty); while Running it returns exactly
what `ProcessEvent` returns. -/
theorem postEvent_stopped_rejected (m : StateMachine T EV) (gid : EV → Nat) (ev : EV) :
    (m.m_stThis ≠ eRunning → m.PostEvent gid ev = some (false, m, [])) ∧
    (m.m_stThis = eRunning → m.PostEvent gid ev = m.ProcessEvent gid ev) := by
  constructor
  · intro h
    simp [StateMachine.PostEvent, h]
  · intro h
    simp [StateMachine.PostEvent, h]

/-- Witness for C6: posting event 0 to the stopped machine `mStop` is
rejected with the machine returned untouched. -/
theorem postEvent_stopped_rejected_witness :
    mStop.PostEvent id 0 = some (false, mStop, []) :=
  (postEvent_stopped_rejected mStop id 0).1 (by decide)

/-- Claim C7 (confirmed): `Reset` succeeds (returns nonzero) exactly when
the run flag is `eStopped`, in which case it sets `m_stCurrent` to the
start state; called while Running it returns 0 and changes nothing.  In
both branches the context and the state pool (hence every entry/exit hook)
are untouched: a reset is a cold rewind that invokes no hook even when the
current state changes. -/
theorem reset_cold_rewind (m : StateMachine T EV) :
    (m.m_stThis = eStopped → m.Reset = (1, { m with m_stCurrent := some m.m_stStart })) ∧
    (m.m_stThis ≠ eStopped → m.Reset = (0, m)) ∧
    ((m.Reset).1 ≠ 0 ↔ m.m_stThis = eStopped) ∧
    ((m.Reset).2).m_T = m.m_T ∧ ((m.Reset).2).states = m.states := by
  by_cases h : m.m_stThis = eStopped
  · refine ⟨fun _ => by simp [StateMachine.Reset, h], fun hn => absurd h hn, ?_, ?_, ?_⟩
    · simp [StateMachine.Reset, h]
    · simp [StateMachine.Reset, h]
    · simp [StateMachine.Reset, h]
  · refine ⟨fun h0 => absurd h0 h, fun _ => by simp [StateMachine.Reset, h], ?_, ?_, ?_⟩
    · simp [StateMachine.Reset, h]
    · simp [StateMachine.Reset, h]
    · simp [StateMachine.Reset, h]

/-- Witness for C7: resetting the stopped machine `mStop` (current state
0 = start state) succeeds, returning 1 and rewinding `m_stCurrent` to the
start index with no other change. -/
theorem reset_cold_rewind_witness :
    mStop.Reset = (1, { mStop with m_stCurrent := some mStop.m_stStart }) :=
  (reset_cold_rewind mStop).1 rfl

/-- Claim C8 (confirmed): a transition registered through `State::add`
without a guard is stored with the always-true `NoGuard`; its
`isTransitable` returns true for every context/event pair and its
`operator()` always executes the action and returns the target state.  The
stored vector for the identifier is the previous one with the new
transition appended. -/
theorem add_without_guard_always_eligible (s : State T EV) (k tgt : Nat)
    (hAction : Option (T → EV → T)) :
    mapFind ((s.add k tgt hAction none)).m_stTable k =
      some (mapFindD s.m_stTable k [] ++ [⟨tgt, actionOf hAction, some NoGuard⟩]) ∧
    (∀ t ev, Transition.isTransitable ⟨tgt, actionOf hAction, some NoGuard⟩ t ev = true) ∧
    (∀ t ev, Transition.call ⟨tgt, actionOf hAction, some NoGuard⟩ t ev =
      some (tgt, actionOf hAction t ev)) := by
  refine ⟨?_, fun t ev => rfl, fun t ev => rfl⟩
  simp only [State.add, guardOf]
  rw [mapFind_mapSet_self, mapIndex_fst]

/-- Claim C9, counterexample to the claim as stated: looking up an
identifier with no registered transitions through `State::operator[]` DOES
mutate the state — `std::map::operator[]` default-inserts an empty vector,
so the table of `sEmptyTbl` (empty before) holds the key afterwards. -/
theorem state_index_mutates_cex :
    (sEmptyTbl.index 0).1 = [] ∧
    (mapFind sEmptyTbl.m_stTable 0).isSome = false ∧
    (mapFind ((sEmptyTbl.index 0).2).m_stTable 0).isSome = true ∧
    ((sEmptyTbl.index 0).2).m_stTable.length = 1 ∧ sEmptyTbl.m_stTable.length = 0 :=
  ⟨rfl, rfl, rfl, rfl, rfl⟩

/-- Claim C9 (amended): the lookup returns the possibly empty registered
sequence; when the identifier is absent it default-inserts an empty entry
for it — mutating the table's key set (so dispatch on an unregistered
identifier also grows the table) — but it preserves the effective
transition sequence of every identifier (a missing key behaving as the
empty sequence) and leaves the entry/exit hooks untouched; only
`State::add` ever changes an identifier's registered sequence. -/
theorem state_index_preserves_content (s : State T EV) (k : Nat) :
    (s.index k).1 = mapFindD s.m_stTable k [] ∧
    (∀ k2, mapFindD ((s.index k).2).m_stTable k2 [] = mapFindD s.m_stTable k2 []) ∧
    ((s.index k).2).m_evEnter = s.m_evEnter ∧ ((s.index k).2).m_evExit = s.m_evExit :=
  ⟨State.index_fst s k, fun k2 => State.index_snd_table s k k2, rfl, rfl⟩

/-- The shape of every handled dispatch: result true forces the
three-entry trace and a current pointer equal to the entered state. -/
lemma ProcessEvent_handled_shape (m : StateMachine T EV) (gid : EV → Nat) (ev : EV) :
    ∀ mp tr, m.ProcessEvent gid ev = some (true, mp, tr) →
    ∃ c2 j n, tr = [TraceItem.exited c2, TraceItem.acted j, TraceItem.entered n] ∧
      mp.m_stCurrent = some n := by
  intro mp tr h
  unfold StateMachine.ProcessEvent at h
  cases hc : m.m_stCurrent with
  | none => rw [hc] at h; simp at h
  | some c =>
    rw [hc] at h
    cases hs : m.states[c]? with
    | none => simp [hs] at h
    | some s =>
      simp only [hs] at h
      by_cases hcond : (((s.index (gid ev)).1).isEmpty
          || !(transitable m.m_T ((s.index (gid ev)).1) ev)) = true
      · rw [if_pos hcond] at h
        simp at h
      · rw [if_neg hcond] at h
        rcases happ : applyScan ev ((s.index (gid ev)).1) 0
            (((s.index (gid ev)).2).Exit m.m_T ev) with ⟨o, t2⟩
        cases o with
        | none => simp [happ] at h
        | some nj =>
          obtain ⟨next, j⟩ := nj
          cases hn : (m.states.set c (s.index (gid ev)).2)[next]? with
          | none => simp [happ, hn] at h
          | some sN =>
            simp only [happ, hn, Option.some.injEq, Prod.mk.injEq] at h
            obtain ⟨_, hm, htr⟩ := h
            exact ⟨c, j, next, htr.symm, by rw [← hm]⟩

/-- Claim C10 (confirmed): the value `PostEvent` returns collapses the
three outcome categories into two — rejection while Stopped and an
unhandled event while Running both yield the same value (false), and a
true result occurs only for a successfully handled dispatch (it forces the
run flag to have been `eRunning` and the full exit/action/entry trace), so
the return value alone cannot distinguish "rejected by lifecycle" from
"unhandled". -/
theorem postEvent_return_collapses (m : StateMachine T EV) (gid : EV → Nat) (ev : EV) :
    (m.m_stThis ≠ eRunning → m.PostEvent gid ev = some (false, m, [])) ∧
    (∀ c s, m.m_stThis = eRunning → m.m_stCurrent = some c → m.states[c]? = some s →
      ((s.index (gid ev)).1 = [] ∨ transitable m.m_T ((s.index (gid ev)).1) ev = false) →
      m.PostEvent gid ev =
        some (false, { m with states := m.states.set c (s.index (gid ev)).2 }, [])) ∧
    (∀ mp tr, m.PostEvent gid ev = some (true, mp, tr) →
      m.m_stThis = eRunning ∧ ∃ c2 j n, tr = [TraceItem.exited c2, TraceItem.acted j,
        TraceItem.entered n] ∧ mp.m_stCurrent = some n) := by
  refine ⟨?_, ?_, ?_⟩
  · intro h
    simp [StateMachine.PostEvent, h]
  · intro c s hrun hc hs h
    have hp := ProcessEvent_unhandled m gid ev c s hc hs h
    simp [StateMachine.PostEvent, hrun, hp]
  · intro mp tr h
    unfold StateMachine.PostEvent at h
    by_cases hrun : m.m_stThis ≠ eRunning
    · rw [if_pos hrun] at h
      simp at h
    · rw [if_neg hrun] at h
      push_neg at hrun
      exact ⟨hrun, ProcessEvent_handled_shape m gid ev mp tr h⟩

/-- Witness for C10: the stopped machine `mStop` rejects event 0 and the
running machine `mUnh` leaves it unhandled — both calls return the same
value, false. -/
theorem postEvent_return_collapses_witness :
    mStop.PostEvent id 0 = some (false, mStop, []) ∧
    mUnh.PostEvent id 0 =
      some (false, { mUnh with states := mUnh.states.set 1 (s1.index 0).2 }, []) :=
  ⟨(postEvent_return_collapses mStop id 0).1 (by decide),
   (postEvent_return_collapses mUnh id 0).2.1 1 s1 rfl rfl rfl (Or.inl rfl)⟩

end lbl
